import Mathlib

/-!
Verification of gorm-sample: repository, transaction executor and ingestion service.

A shallow embedding of the four Go source files

* `repositories/foo/foo.go`  (namespace `dataAccessLayer`, the alias the callers import it under),
* `gormcommon/gormcommon.go` (namespace `gormcommon`),
* `services/foo/foo.go`      (namespace `fooService`),
* `main.go`                  (the wiring, namespace `main`),

over an explicit model of what the code runs on: Go error values, panics and
`recover`, a channel, a cancellable context, the `select` statement, and the
storage engine reached through `*gorm.DB` (namespace `gorm`).

Stateful code is written in state-passing style over `World`. Everything the
program cannot decide itself (which identifier `uuid.New` draws, whether the
engine fails a statement, which ready case a `select` takes) is a field of
`Env` or a scheduling function, and the theorems quantify over them.
-/

/-! ## Identifiers -/

namespace uuid

/-- UUID value of `github.com/google/uuid`: sixteen bytes, held as the number they encode. -/
structure UUID where
  val : Nat
  deriving DecidableEq

/-- The value `uuid.Nil`, the all-zero identifier. -/
def Nil : UUID := ⟨0⟩

/-- The canonical text form `xxxxxxxx-xxxx-xxxx-xxxx-xxxxxxxxxxxx` used by `%s`. -/
def UUID.String (u : UUID) : String :=
  let digits := Nat.toDigits 16 (u.val % 2 ^ 128)
  let hex := List.replicate (32 - digits.length) '0' ++ digits
  String.mk (hex.take 8 ++ ['-'] ++ (hex.drop 8).take 4 ++ ['-'] ++ (hex.drop 12).take 4
    ++ ['-'] ++ (hex.drop 16).take 4 ++ ['-'] ++ hex.drop 20)

end uuid

/-! ## Records and error values -/

namespace dataAccessLayer

/-- Database level type (`repositories/foo/foo.go`, `type Foo struct`). -/
structure Foo where
  ID : uuid.UUID
  Name : String
  deriving DecidableEq

/-- A custom error carrying the queried identifier (`type ErrNoFooByID struct`). -/
structure ErrNoFooByID where
  ID : uuid.UUID
  deriving DecidableEq

/-- Method `func (err ErrNoFooByID) Error() string`. -/
def ErrNoFooByID.Error (err : ErrNoFooByID) : String :=
  "there was no foo with id: " ++ err.ID.String

end dataAccessLayer

/-- Go `error` values that occur in the program. A value is identified by its content.
`sentinel` is a package-level error variable (`gorm.ErrRecordNotFound`, `context.Canceled`,
a driver error), `errorf` is `fmt.Errorf` with a format that has no `%w` (the text is the
rendered message), `wrapf text inner` is `fmt.Errorf` with a format ending in `%w` (the
text is what is rendered before the wrapped error), and `noFooByID` is an `ErrNoFooByID`. -/
inductive GoError where
  | sentinel (text : String)
  | errorf (text : String)
  | wrapf (text : String) (inner : GoError)
  | noFooByID (e : dataAccessLayer.ErrNoFooByID)
  deriving DecidableEq

/-- The nil-able `error` interface: `none` is `nil`. -/
abbrev GoErr := Option GoError

/-- Method `Error() string`. -/
def GoError.Error : GoError → String
  | .sentinel text => text
  | .errorf text => text
  | .wrapf text inner => text ++ inner.Error
  | .noFooByID e => e.Error

/-- The walk of `errors.Is` down the `Unwrap` chain of a non-nil error. -/
def GoError.Is : GoError → GoError → Bool
  | .wrapf text inner, target => decide (GoError.wrapf text inner = target) || inner.Is target
  | .sentinel text, target => decide (GoError.sentinel text = target)
  | .errorf text, target => decide (GoError.errorf text = target)
  | .noFooByID e, target => decide (GoError.noFooByID e = target)

/-- Function `errors.Is(err, target)` for a non-nil target. -/
def errorsIs : GoErr → GoError → Bool
  | none, _ => false
  | some err, target => err.Is target

/-- An error that annotates another: it wraps it under some added text. -/
def GoError.Annotates (outer inner : GoError) : Prop :=
  ∃ text, outer = GoError.wrapf text inner

/-- Values a goroutine can panic with: a value implementing `error` (runtime errors are
such values), or any other value, held as its `%v` rendering. -/
inductive PanicValue where
  | error (e : GoError)
  | value (rendered : String)
  deriving DecidableEq

/-- Rendering of a panic value by the verb `%v`. -/
def PanicValue.format : PanicValue → String
  | .error e => e.Error
  | .value rendered => rendered

/-- The runtime panic raised by calling a nil function value or using a nil pointer. -/
def nilDereference : PanicValue :=
  .error (.sentinel "runtime error: invalid memory address or nil pointer dereference")

/-! ## The world the program runs in -/

/-- The observable state: the committed rows of the table, the rows written through the
open transaction, how many insert statements were issued on a handle, how many
identifiers `uuid.New` has drawn, and the messages logged. -/
structure World where
  rows : List dataAccessLayer.Foo
  txRows : List dataAccessLayer.Foo
  inserts : Nat
  uuids : Nat
  logs : List String
  deriving DecidableEq

/-- Append one log message (the `Msg` text of a zerolog event). -/
def World.log (w : World) (msg : String) : World :=
  { w with logs := w.logs ++ [msg] }

/-- What the program does not decide: the identifier drawn by the n-th `uuid.New()`, the
error (if any) of the n-th insert statement, of a query, of `Begin`, of `Commit` and of
`SavePoint`. -/
structure Env where
  newUUID : Nat → uuid.UUID
  insertErr : Nat → GoErr
  takeErr : GoErr
  beginErr : GoErr
  commitErr : GoErr
  savepointErr : GoErr

/-- How a call ends: it returns a value, it panics, it blocks forever (a `select` none of
whose cases can ever proceed), or it is still running when the iteration allowance ends. -/
inductive Result (α : Type) where
  | ret (a : α) (w : World)
  | panic (v : PanicValue) (w : World)
  | blocked (w : World)
  | timeout (w : World)

/-- The state in which a call ended (or was last seen). -/
def Result.world {α : Type} : Result α → World
  | .ret _ w => w
  | .panic _ w => w
  | .blocked w => w
  | .timeout w => w

/-- A cancellable `context.Context` as the function it is passed to sees it. Time is
counted from the moment that function is called: time 0 is the call itself, and an entry
point of the ingestion service evaluates the `select` of its i-th iteration (from 1) at
time `i`. `doneAt = some n` says that `Done()` is closed from time `n` on, `none` that the
context is never cancelled; `err` is what `Err()` reports once done. -/
structure Context where
  doneAt : Option Nat
  err : GoError

/-- Whether `ctx.Done()` is closed at time `t`. -/
def Context.done (ctx : Context) (t : Nat) : Bool :=
  match ctx.doneAt with
  | some n => decide (n ≤ t)
  | none => false

/-- The same context handed on to a call made at time `t`: the callee counts time from its
own call, so what is done at the caller's time `t` is done at the callee's time 0. -/
def Context.since (ctx : Context) (t : Nat) : Context :=
  { ctx with doneAt := ctx.doneAt.map (fun n => n - t) }

/-- The sentinel `context.Canceled`. -/
def context.Canceled : GoError := .sentinel "context canceled"

/-- The context `context.Background()`: never cancelled, so `err` is never read. -/
def context.Background : Context := { doneAt := none, err := context.Canceled }

/-! ## The storage engine behind `*gorm.DB` -/

namespace gorm

/-- A non-nil `*gorm.DB`: the connection handle (every statement commits on its own) or a
transaction-scoped handle. A nil-able pointer is an `Option DB`. -/
inductive DB where
  | conn
  | txn
  deriving DecidableEq

/-- The sentinel `gorm.ErrRecordNotFound`. -/
def ErrRecordNotFound : GoError := .sentinel "record not found"

/-- Rows a statement on the handle can see. -/
def DB.visible (db : DB) (w : World) : List dataAccessLayer.Foo :=
  match db with
  | .conn => w.rows
  | .txn => w.rows ++ w.txRows

/-- Statement `db.WithContext(ctx).Create(foo).Error`: one insert statement, issued under
the context. A statement issued under a context that is already done is refused with the
context's error and stores nothing; otherwise the engine answers. -/
def DB.Create (env : Env) (db : DB) (ctx : Context) (foo : dataAccessLayer.Foo) (w : World) :
    GoErr × World :=
  let w1 := { w with inserts := w.inserts + 1 }
  if ctx.done 0 then (some ctx.err, w1)
  else
    match env.insertErr w.inserts with
    | some e => (some e, w1)
    | none =>
      match db with
      | .conn => (none, { w1 with rows := w1.rows ++ [foo] })
      | .txn => (none, { w1 with txRows := w1.txRows ++ [foo] })

/-- Statement `db.WithContext(ctx).Take(&result, "id = ?", id).Error`: a query under a
context that is already done is refused with the context's error; otherwise the first
matching row is copied into `result`, and no row gives `ErrRecordNotFound`. -/
def DB.Take (env : Env) (db : DB) (ctx : Context) (id : uuid.UUID) (w : World) :
    dataAccessLayer.Foo × GoErr :=
  if ctx.done 0 then ({ ID := uuid.Nil, Name := "" }, some ctx.err)
  else
    match env.takeErr with
    | some e => ({ ID := uuid.Nil, Name := "" }, some e)
    | none =>
      match (db.visible w).find? (fun row => decide (row.ID = id)) with
      | some row => (row, none)
      | none => ({ ID := uuid.Nil, Name := "" }, some ErrRecordNotFound)

/-- The error, if any, of beginning a transaction under the context: refused with the
context's error when the context is already done, the engine's answer otherwise. -/
def DB.Begin (env : Env) (ctx : Context) : GoErr :=
  if ctx.done 0 then some ctx.err else env.beginErr

/-- The error, if any, of setting a savepoint under the context. -/
def DB.SavePoint (env : Env) (ctx : Context) : GoErr :=
  if ctx.done 0 then some ctx.err else env.savepointErr

/-- Method `db.WithContext(ctx).Transaction(fc)`. On the connection handle: begin, run
`fc` on the transaction handle, commit when it returns nil, roll back when it returns an
error, when it panics (the panic goes on) or when the commit fails. On a transaction
handle: the same with a savepoint in place of a new transaction. -/
def DB.Transaction (env : Env) (db : DB) (ctx : Context) (fc : DB → World → Result GoErr)
    (w : World) : Result GoErr :=
  match db with
  | .conn =>
    match DB.Begin env ctx with
    | some e => .ret (some e) w
    | none =>
      match fc .txn { w with txRows := [] } with
      | .ret none w1 =>
        match env.commitErr with
        | none => .ret none { w1 with rows := w1.rows ++ w1.txRows, txRows := [] }
        | some e => .ret (some e) { w1 with txRows := [] }
      | .ret (some e) w1 => .ret (some e) { w1 with txRows := [] }
      | .panic v w1 => .panic v { w1 with txRows := [] }
      | .blocked w1 => .blocked w1
      | .timeout w1 => .timeout w1
  | .txn =>
    match DB.SavePoint env ctx with
    | some e => .ret (some e) w
    | none =>
      match fc .txn w with
      | .ret none w1 => .ret none w1
      | .ret (some e) w1 => .ret (some e) { w1 with txRows := w.txRows }
      | .panic v w1 => .panic v { w1 with txRows := w.txRows }
      | .blocked w1 => .blocked w1
      | .timeout w1 => .timeout w1

end gorm

/-! ## `gormcommon/gormcommon.go` -/

namespace gormcommon

/-- Type `TxOperation func(tx *gorm.DB) error`. -/
abbrev TxOperation := gorm.DB → World → Result GoErr

/-- The variables of the function literal that `InTx` passes to `Transaction`: the local
`var err error`, and the function's result, which the signature `func(tx *gorm.DB) error`
leaves unnamed, so that only a `return` statement writes it. -/
structure TxFrame where
  err : GoErr
  result : GoErr

/-- The deferred function literal of `InTx`: `recovered` is what `recover()` yields (`none`
when the goroutine is not panicking). Both branches of the type switch assign the same
`fmt.Errorf` value to the local `err`. -/
def InTx.deferred (recovered : Option PanicValue) (frame : TxFrame) (w : World) :
    TxFrame × World :=
  match recovered with
  | none => (frame, w)
  | some panicValue =>
    match panicValue with
    | .error _ =>
      ({ frame with
          err := some (.errorf ("a panic ocurred in the gorm transaction: " ++ panicValue.format)) },
        w.log "a panic occurred in the gorm transaction")
    | .value _ =>
      ({ frame with
          err := some (.errorf ("a panic ocurred in the gorm transaction: " ++ panicValue.format)) },
        w.log "a panic occurred in the gorm transaction")

/-- The function literal `func(tx *gorm.DB) error { ... }` of `InTx`. When the operation
returns, `err = operation(tx); return err` copies the value into the result and the
deferred function finds nothing to recover. When the operation panics, the deferred
function recovers, which stops the panic, and the literal returns its result as it
stands. -/
def InTx.callback (operation : TxOperation) (tx : gorm.DB) (w : World) : Result GoErr :=
  let frame : TxFrame := { err := none, result := none }
  match operation tx w with
  | .ret e w1 =>
    let frame := { frame with err := e }
    let frame := { frame with result := frame.err }
    let out := InTx.deferred none frame w1
    .ret out.1.result out.2
  | .panic v w1 =>
    let out := InTx.deferred (some v) frame w1
    .ret out.1.result out.2
  | .blocked w1 => .blocked w1
  | .timeout w1 => .timeout w1

/-- Function `InTx(ctx, db, operation)`: `db.WithContext(ctx).Transaction(callback)`; a nil
`db` is dereferenced by `WithContext`. -/
def InTx (env : Env) (ctx : Context) (db : Option gorm.DB) (operation : TxOperation)
    (w : World) : Result GoErr :=
  match db with
  | none => .panic nilDereference w
  | some handle => handle.Transaction env ctx (InTx.callback operation) w

end gormcommon

/-! ## `repositories/foo/foo.go` -/

namespace dataAccessLayer

/-- Interface `FooRepository`. `Create` takes a `*Foo`; the record as the call leaves it
is returned beside the error. -/
structure FooRepository where
  Create : Context → Foo → World → Result (GoErr × Foo)
  GetByID : Context → uuid.UUID → World → Result (Option Foo × GoErr)

/-- Type `FooProvider func(*gorm.DB) FooRepository`; a provider may panic. -/
abbrev FooProvider := Option gorm.DB → Except PanicValue FooRepository

/-- Type `gormFooRepo struct { db *gorm.DB }`, built only by `NewGormFooRepo`, which
refuses a nil handle. -/
structure gormFooRepo where
  db : gorm.DB

/-- Method `func (repo *gormFooRepo) Create(ctx, foo *Foo) error`. -/
def gormFooRepo.Create (env : Env) (repo : gormFooRepo) (ctx : Context) (foo : Foo)
    (w : World) : Result (GoErr × Foo) :=
  let id := foo.ID
  if id ≠ uuid.Nil then
    .ret (some (.errorf ("create was called with a foo that already had an id: " ++ id.String)),
      foo) w
  else
    let foo := { foo with ID := env.newUUID w.uuids }
    let w := { w with uuids := w.uuids + 1 }
    let out := repo.db.Create env ctx foo w
    .ret (out.1, foo) out.2

/-- Method `func (repo *gormFooRepo) GetByID(ctx, id) (*Foo, error)`. -/
def gormFooRepo.GetByID (env : Env) (repo : gormFooRepo) (ctx : Context) (id : uuid.UUID)
    (w : World) : Result (Option Foo × GoErr) :=
  let out := repo.db.Take env ctx id w
  let result := out.1
  let err := out.2
  if errorsIs err gorm.ErrRecordNotFound then
    .ret (none, some (.noFooByID { ID := id })) w
  else
    match err with
    | some e =>
      .ret (none, some (.wrapf ("could not locate store type by id (" ++ id.String ++ "): ") e)) w
    | none => .ret (some result, none) w

/-- The `*gormFooRepo` seen through the interface `FooRepository`. -/
def gormFooRepo.toRepository (env : Env) (repo : gormFooRepo) : FooRepository :=
  { Create := repo.Create env, GetByID := repo.GetByID env }

/-- Function `NewGormFooRepo(db)`: panics on a nil handle. -/
def NewGormFooRepo (env : Env) : FooProvider := fun db =>
  match db with
  | none => .error (.value "")
  | some handle => .ok (gormFooRepo.toRepository env { db := handle })

end dataAccessLayer

/-! ## `services/foo/foo.go` -/

namespace fooService

/-- API level type (`services/foo/foo.go`, `type Foo struct`). -/
structure Foo where
  ID : uuid.UUID
  Name : String
  deriving DecidableEq

/-- Function `MapFooApiToDataLayer`. -/
def MapFooApiToDataLayer (foo : Foo) : dataAccessLayer.Foo :=
  { ID := foo.ID, Name := foo.Name }

/-- Function `MapDataLayerToApi`. -/
def MapDataLayerToApi (foo : dataAccessLayer.Foo) : Foo :=
  { ID := foo.ID, Name := foo.Name }

/-- A `<-chan Foo` as its single reader sees it: the values still to be delivered, in
order, and whether the producer closes the channel after them (`closed = false`: after
them nothing is ever sent). -/
structure Chan where
  items : List Foo
  closed : Bool

/-- The receive `<-fooChan`, when it can proceed: the next value, or the zero value of
`Foo` once the channel is closed and drained. -/
def Chan.recv (ch : Chan) : Option (Foo × Chan) :=
  match ch.items with
  | x :: xs => some (x, { ch with items := xs })
  | [] => if ch.closed then some ({ ID := uuid.Nil, Name := "" }, ch) else none

/-- The case a `select` takes. -/
inductive Selected where
  | ctxDone
  | received (apiFoo : Foo) (rest : Chan)
  | blocked

/-- The statement `select { case <-ctx.Done(): ... case apiFoo := <-fooChan: ... }`
evaluated at time `i`. When both cases can proceed Go takes either one: `sched i = true`
takes the cancellation case. When only one can proceed it is taken. When none can, the
statement waits: for the cancellation if one ever comes, forever otherwise. -/
def select (sched : Nat → Bool) (ctx : Context) (i : Nat) (fooChan : Chan) : Selected :=
  match fooChan.recv with
  | some (apiFoo, rest) =>
    if ctx.done i && sched i then .ctxDone else .received apiFoo rest
  | none =>
    if ctx.doneAt.isSome then .ctxDone else .blocked

/-- The `for { select { ... } }` loop shared, statement for statement, by
`CreateMultipleAtomic` (lines 62-74) and `CreateMultiple` (lines 82-94); `i` is the time
of the next `select` and the first argument bounds the iterations still allowed.
`repo.Create(ctx, &dataLayerFoo)` is a call made at time `i`, after the `select`. -/
def createLoop (sched : Nat → Bool) (ctx : Context) (repo : dataAccessLayer.FooRepository) :
    Nat → Nat → Chan → World → Result GoErr
  | 0, _, _, w => .timeout w
  | fuel + 1, i, fooChan, w =>
    match select sched ctx i fooChan with
    | .ctxDone =>
      let err := ctx.err
      .ret (some (.wrapf "could not complete creation of many foo: " err))
        (w.log "context was killed while creating many")
    | .received apiFoo rest =>
      let dataLayerFoo := MapFooApiToDataLayer apiFoo
      match repo.Create (ctx.since i) dataLayerFoo w with
      | .ret (some err, _) w1 => .ret (some (.wrapf "could not create a foo: " err)) w1
      | .ret (none, _) w1 => createLoop sched ctx repo fuel (i + 1) rest w1
      | .panic v w1 => .panic v w1
      | .blocked w1 => .blocked w1
      | .timeout w1 => .timeout w1
    | .blocked => .blocked w

/-- Type `gormFooService struct { db *gorm.DB; repoProvider FooProvider }`; a nil
function value is `none`. -/
structure gormFooService where
  db : Option gorm.DB
  repoProvider : Option dataAccessLayer.FooProvider

/-- Function `NewFooService(db, fooRepoProvider)`: the composite literal sets `db` only,
so `repoProvider` keeps its zero value. -/
def NewFooService (db : Option gorm.DB) (_fooRepoProvider : dataAccessLayer.FooProvider) :
    gormFooService :=
  { db := db, repoProvider := none }

/-- The call `service.repoProvider(handle)`: calling a nil function value panics. -/
def gormFooService.callProvider (service : gormFooService) (handle : Option gorm.DB) :
    Except PanicValue dataAccessLayer.FooRepository :=
  match service.repoProvider with
  | none => .error nilDereference
  | some provider => provider handle

/-- Method `CreateMultipleAtomic`: the loop runs as the operation of `InTx`, on a
repository made from the transaction handle. `InTx` begins the transaction at time 0 and
the first `select` is evaluated at time 1. The context derived by `WithCancel` is done
exactly when its parent is and reports the parent's error. -/
def gormFooService.CreateMultipleAtomic (env : Env) (sched : Nat → Bool) (fuel : Nat)
    (service : gormFooService) (ctx : Context) (fooChan : Chan) (w : World) : Result GoErr :=
  gormcommon.InTx env ctx service.db (fun tx w =>
    match service.callProvider (some tx) with
    | .error v => .panic v w
    | .ok repo => createLoop sched ctx repo fuel 1 fooChan w) w

/-- Method `CreateMultiple`: the loop runs on a repository made from the service's own
handle; the first `select` is evaluated at time 1. -/
def gormFooService.CreateMultiple (_env : Env) (sched : Nat → Bool) (fuel : Nat)
    (service : gormFooService) (ctx : Context) (fooChan : Chan) (w : World) : Result GoErr :=
  match service.callProvider service.db with
  | .error v => .panic v w
  | .ok repo => createLoop sched ctx repo fuel 1 fooChan w

end fooService

/-! ## `main.go` -/

namespace main

/-- The service as `main` builds it: `NewFooService(db, fooDataLayer.NewGormFooRepo)` on
the opened connection. -/
def service (env : Env) : fooService.gormFooService :=
  fooService.NewFooService (some .conn) (dataAccessLayer.NewGormFooRepo env)

/-- The channel of `main`: the goroutine sends three records and closes it. -/
def fooChan : fooService.Chan :=
  { items := [{ ID := uuid.Nil, Name := "Foo A" }, { ID := uuid.Nil, Name := "Foo B" },
      { ID := uuid.Nil, Name := "Foo C" }],
    closed := true }

end main

/-! ## Reference points for the statements -/

/-- An empty store on which nothing has happened yet. -/
def World.empty : World :=
  { rows := [], txRows := [], inserts := 0, uuids := 0, logs := [] }

/-- An environment in which nothing fails and the n-th identifier drawn is `n + 1`. -/
def Env.quiet : Env :=
  { newUUID := fun n => ⟨n + 1⟩, insertErr := fun _ => none, takeErr := none,
    beginErr := none, commitErr := none, savepointErr := none }

/-- The environment `Env.quiet`, except that the insert statement number `k` (from 0) fails. -/
def Env.failingInsert (k : Nat) (e : GoError) : Env :=
  { Env.quiet with insertErr := fun n => if n = k then some e else none }

/-- A service value whose `repoProvider` field does hold the gorm repository provider. -/
def fooService.wired (env : Env) (db : Option gorm.DB) : fooService.gormFooService :=
  { db := db, repoProvider := some (dataAccessLayer.NewGormFooRepo env) }

/-- The rows that successful `Create` calls store for the given records when the next
identifier to be drawn is number `n`: a fresh identifier each, the name kept. -/
def stored (env : Env) : Nat → List fooService.Foo → List dataAccessLayer.Foo
  | _, [] => []
  | n, f :: fs => { ID := env.newUUID n, Name := f.Name } :: stored env (n + 1) fs

/-- The world after one successful `Create` of a record through the handle. -/
def World.created (env : Env) (db : gorm.DB) (f : fooService.Foo) (w : World) : World :=
  match db with
  | .conn =>
    { w with rows := w.rows ++ [{ ID := env.newUUID w.uuids, Name := f.Name }],
             inserts := w.inserts + 1, uuids := w.uuids + 1 }
  | .txn =>
    { w with txRows := w.txRows ++ [{ ID := env.newUUID w.uuids, Name := f.Name }],
             inserts := w.inserts + 1, uuids := w.uuids + 1 }

/-- The world after successful `Create` calls for all the records, in order. -/
def World.createdAll (env : Env) (db : gorm.DB) : List fooService.Foo → World → World
  | [], w => w
  | f :: fs, w => World.createdAll env db fs (w.created env db f)

/-- A unit of work that inserts one row through the transaction handle and then panics
with the given value. -/
def insertThenPanic (env : Env) (v : PanicValue) : gormcommon.TxOperation := fun tx w =>
  .panic v (tx.Create env context.Background { ID := ⟨7⟩, Name := "row" } w).2

/-- A unit of work that inserts one row through the transaction handle and returns `e`. -/
def insertThenReturn (env : Env) (e : GoErr) : gormcommon.TxOperation := fun tx w =>
  .ret e (tx.Create env context.Background { ID := ⟨7⟩, Name := "row" } w).2

/-! ## Field mapping (`MapFooApiToDataLayer`, `MapDataLayerToApi`) -/

/-- C9: mapping an API record to the storage type and back gives the record again, and so
does the other order; both mappings keep `ID` and `Name` as they are. -/
theorem mapping_round_trip :
    (∀ f : fooService.Foo,
        fooService.MapDataLayerToApi (fooService.MapFooApiToDataLayer f) = f) ∧
    (∀ g : dataAccessLayer.Foo,
        fooService.MapFooApiToDataLayer (fooService.MapDataLayerToApi g) = g) ∧
    (∀ f : fooService.Foo,
        (fooService.MapFooApiToDataLayer f).ID = f.ID ∧
        (fooService.MapFooApiToDataLayer f).Name = f.Name) ∧
    (∀ g : dataAccessLayer.Foo,
        (fooService.MapDataLayerToApi g).ID = g.ID ∧
        (fooService.MapDataLayerToApi g).Name = g.Name) := by
  refine ⟨fun f => ?_, fun g => ?_, fun f => ⟨rfl, rfl⟩, fun g => ⟨rfl, rfl⟩⟩
  · cases f; rfl
  · cases g; rfl

/-! ## Repository (`gormFooRepo.Create`, `gormFooRepo.GetByID`) -/

/-- C6: a record that already carries an identifier is refused: `Create` returns the
validation error, the world is untouched (no identifier drawn, no insert statement, no
row) and the record is as it was. -/
theorem create_rejects_preset_id (env : Env) (repo : dataAccessLayer.gormFooRepo)
    (ctx : Context) (foo : dataAccessLayer.Foo) (w : World) (h : foo.ID ≠ uuid.Nil) :
    repo.Create env ctx foo w =
      .ret (some (.errorf ("create was called with a foo that already had an id: "
        ++ foo.ID.String)), foo) w := by
  simp [dataAccessLayer.gormFooRepo.Create, h]

/-- Witness of C6 at the record with identifier 7 on the empty store. -/
theorem create_rejects_preset_id_witness :
    dataAccessLayer.gormFooRepo.Create Env.quiet { db := .conn } context.Background
        { ID := ⟨7⟩, Name := "seven" } World.empty =
      .ret (some (.errorf ("create was called with a foo that already had an id: "
        ++ uuid.UUID.String ⟨7⟩)), { ID := ⟨7⟩, Name := "seven" }) World.empty :=
  create_rejects_preset_id Env.quiet { db := .conn } context.Background
    { ID := ⟨7⟩, Name := "seven" } World.empty (by decide)

/-- C7, as the claim has it, fails where the insert fails: `Create` hands back the
engine's error itself, with nothing added to it. -/
theorem create_returns_engine_error_bare :
    dataAccessLayer.gormFooRepo.Create (Env.failingInsert 0 (.sentinel "connection refused"))
        { db := .conn } context.Background { ID := uuid.Nil, Name := "A" } World.empty =
      .ret (some (.sentinel "connection refused"), { ID := ⟨1⟩, Name := "A" })
        { rows := [], txRows := [], inserts := 1, uuids := 1, logs := [] } ∧
    ¬ GoError.Annotates (.sentinel "connection refused") (.sentinel "connection refused") := by
  refine ⟨rfl, ?_⟩
  rintro ⟨text, h⟩
  cases h

/-- C7 (amended): for a record without identifier, `Create` draws one identifier, puts it
into the record, keeps the name, issues exactly one insert statement, for that record and
under the context it was given, and returns what that statement answers, unchanged: nil
when the insert succeeds (the row is then visible through the handle), the error otherwise
(no row is added). Under a context that is not done the answer is the engine's own; under
a context already done it is the context's error. -/
theorem create_assigns_id_and_inserts (env : Env) (repo : dataAccessLayer.gormFooRepo)
    (ctx : Context) (foo : dataAccessLayer.Foo) (w : World) (h : foo.ID = uuid.Nil) :
    ∃ (answer : GoErr) (w1 : World),
      repo.Create env ctx foo w =
        .ret (answer, { ID := env.newUUID w.uuids, Name := foo.Name }) w1 ∧
      (answer, w1) = repo.db.Create env ctx { ID := env.newUUID w.uuids, Name := foo.Name }
              { w with uuids := w.uuids + 1 } ∧
      (ctx.done 0 = false → answer = env.insertErr w.inserts) ∧
      (ctx.done 0 = true → answer = some ctx.err) ∧
      w1.inserts = w.inserts + 1 ∧ w1.uuids = w.uuids + 1 ∧
      (answer = none →
        repo.db.visible w1 =
          repo.db.visible w ++ [{ ID := env.newUUID w.uuids, Name := foo.Name }]) ∧
      (answer ≠ none → w1.rows = w.rows ∧ w1.txRows = w.txRows) := by
  obtain ⟨db⟩ := repo
  refine ⟨(db.Create env ctx { ID := env.newUUID w.uuids, Name := foo.Name }
      { w with uuids := w.uuids + 1 }).1,
    (db.Create env ctx { ID := env.newUUID w.uuids, Name := foo.Name }
      { w with uuids := w.uuids + 1 }).2, ?_, rfl, ?_, ?_, ?_, ?_, ?_, ?_⟩
  · simp [dataAccessLayer.gormFooRepo.Create, h]
  · intro hctx
    simp only [gorm.DB.Create, hctx]
    cases env.insertErr w.inserts <;> cases db <;> rfl
  · intro hctx
    simp only [gorm.DB.Create, hctx]
    rfl
  · simp only [gorm.DB.Create]
    cases ctx.done 0 <;> cases env.insertErr w.inserts <;> cases db <;> rfl
  · simp only [gorm.DB.Create]
    cases ctx.done 0 <;> cases env.insertErr w.inserts <;> cases db <;> rfl
  · simp only [gorm.DB.Create]
    cases ctx.done 0 <;> cases env.insertErr w.inserts <;> cases db <;>
      simp [gorm.DB.visible]
  · simp only [gorm.DB.Create]
    cases ctx.done 0 <;> cases env.insertErr w.inserts <;> cases db <;> simp

/-- Witness of C7 (amended): the record named `A` on the empty store, nothing failing. -/
theorem create_assigns_id_and_inserts_witness :
    ∃ (answer : GoErr) (w1 : World),
      dataAccessLayer.gormFooRepo.Create Env.quiet { db := .conn } context.Background
          { ID := uuid.Nil, Name := "A" } World.empty =
        .ret (answer, { ID := Env.quiet.newUUID World.empty.uuids, Name := "A" }) w1 ∧
      (answer, w1) = gorm.DB.conn.Create Env.quiet context.Background
              { ID := Env.quiet.newUUID World.empty.uuids, Name := "A" }
              { World.empty with uuids := World.empty.uuids + 1 } ∧
      (context.Background.done 0 = false →
        answer = Env.quiet.insertErr World.empty.inserts) ∧
      (context.Background.done 0 = true → answer = some context.Background.err) ∧
      w1.inserts = World.empty.inserts + 1 ∧ w1.uuids = World.empty.uuids + 1 ∧
      (answer = none →
        gorm.DB.conn.visible w1 =
          gorm.DB.conn.visible World.empty ++
            [{ ID := Env.quiet.newUUID World.empty.uuids, Name := "A" }]) ∧
      (answer ≠ none →
        w1.rows = World.empty.rows ∧ w1.txRows = World.empty.txRows) :=
  create_assigns_id_and_inserts Env.quiet { db := .conn } context.Background
    { ID := uuid.Nil, Name := "A" } World.empty rfl

/-- An error is found in its own chain. -/
theorem GoError.Is_self (e : GoError) : e.Is e = true := by
  cases e <;> simp [GoError.Is]

/-- C8: `GetByID` answers `(nil, ErrNoFooByID{ID: id})`, with the queried identifier,
exactly when the error of the query is or wraps `gorm.ErrRecordNotFound`; any other
query error comes back wrapped (it stays in the chain of the returned error, which is not
an `ErrNoFooByID`) beside a nil record; a query without error gives the fetched record
and a nil error. -/
theorem getByID_outcomes (env : Env) (repo : dataAccessLayer.gormFooRepo) (ctx : Context)
    (id : uuid.UUID) (w : World) :
    (repo.GetByID env ctx id w = .ret (none, some (.noFooByID { ID := id })) w ↔
      errorsIs (repo.db.Take env ctx id w).2 gorm.ErrRecordNotFound = true) ∧
    (∀ e : GoError, (repo.db.Take env ctx id w).2 = some e →
      errorsIs (some e) gorm.ErrRecordNotFound = false →
      ∃ r : GoError, repo.GetByID env ctx id w = .ret (none, some r) w ∧
        r = .wrapf ("could not locate store type by id (" ++ id.String ++ "): ") e ∧
        errorsIs (some r) e = true ∧ ∀ x, r ≠ .noFooByID x) ∧
    ((repo.db.Take env ctx id w).2 = none →
      repo.GetByID env ctx id w = .ret (some (repo.db.Take env ctx id w).1, none) w) := by
  refine ⟨⟨fun hret => ?_, fun his => ?_⟩, fun e he hnot => ?_, fun hnone => ?_⟩
  · by_contra hne
    have hfalse : errorsIs (repo.db.Take env ctx id w).2 gorm.ErrRecordNotFound = false := by
      simpa using hne
    simp only [dataAccessLayer.gormFooRepo.GetByID, hfalse] at hret
    cases htake : (repo.db.Take env ctx id w).2 with
    | none => simp [htake] at hret
    | some e => simp [htake] at hret
  · simp [dataAccessLayer.gormFooRepo.GetByID, his]
  · refine ⟨_, ?_, rfl, ?_, fun x hx => by cases hx⟩
    · simp only [dataAccessLayer.gormFooRepo.GetByID, he, hnot]
      simp
    · simp [errorsIs, GoError.Is, GoError.Is_self]
  · simp [dataAccessLayer.gormFooRepo.GetByID, hnone, errorsIs]

/-! ## Transaction executor (`InTx`) -/

/-- C5: when the unit of work returns, the function that `InTx` hands to `Transaction`
returns that very value in that very state, whatever the handle and the state it is run
in, so the unit of work has run once; on the connection handle a non-nil error comes back
from `InTx` unchanged with the transaction rolled back, and a nil result has the
transaction committed (the commit's own error, if any, is what `InTx` then returns). -/
theorem inTx_passes_result_through (env : Env) (ctx : Context)
    (operation : gormcommon.TxOperation) (w w1 : World) (e : GoErr)
    (hbegin : gorm.DB.Begin env ctx = none)
    (hop : operation .txn { w with txRows := [] } = .ret e w1) :
    (∀ (tx : gorm.DB) (w0 w2 : World) (e0 : GoErr), operation tx w0 = .ret e0 w2 →
      gormcommon.InTx.callback operation tx w0 = .ret e0 w2) ∧
    gormcommon.InTx env ctx (some .conn) operation w =
      (match e with
       | some err => .ret (some err) { w1 with txRows := [] }
       | none =>
         match env.commitErr with
         | none => .ret none { w1 with rows := w1.rows ++ w1.txRows, txRows := [] }
         | some ce => .ret (some ce) { w1 with txRows := [] }) := by
  have hcb : ∀ (tx : gorm.DB) (w0 w2 : World) (e0 : GoErr), operation tx w0 = .ret e0 w2 →
      gormcommon.InTx.callback operation tx w0 = .ret e0 w2 := by
    intro tx w0 w2 e0 h
    simp [gormcommon.InTx.callback, h, gormcommon.InTx.deferred]
  refine ⟨hcb, ?_⟩
  simp only [gormcommon.InTx, gorm.DB.Transaction, hbegin, hcb _ _ _ _ hop]
  cases e <;> rfl

/-- Witness of C5: a unit of work that inserts a row and returns nil is committed, the
insert having been issued once. -/
theorem inTx_passes_result_through_witness :
    (∀ (tx : gorm.DB) (w0 w2 : World) (e0 : GoErr),
      insertThenReturn Env.quiet none tx w0 = .ret e0 w2 →
      gormcommon.InTx.callback (insertThenReturn Env.quiet none) tx w0 = .ret e0 w2) ∧
    gormcommon.InTx Env.quiet context.Background (some .conn)
        (insertThenReturn Env.quiet none) World.empty =
      .ret none { rows := [{ ID := ⟨7⟩, Name := "row" }], txRows := [], inserts := 1,
                  uuids := 0, logs := [] } :=
  inTx_passes_result_through Env.quiet context.Background (insertThenReturn Env.quiet none)
    World.empty
    { rows := [], txRows := [{ ID := ⟨7⟩, Name := "row" }], inserts := 1, uuids := 0, logs := [] }
    none rfl rfl

/-- When the unit of work panics, the function that `InTx` hands to `Transaction` returns
nil: the error built by the deferred function is assigned to a local variable only. -/
theorem inTx_callback_panic (operation : gormcommon.TxOperation) (tx : gorm.DB)
    (w w1 : World) (v : PanicValue) (hop : operation tx w = .panic v w1) :
    gormcommon.InTx.callback operation tx w =
      .ret none (w1.log "a panic occurred in the gorm transaction") := by
  simp only [gormcommon.InTx.callback, hop]
  cases v <;> rfl

/-- C4 (the code departs from the claim): whenever the unit of work panics, with an error
value or any other value, the function that `InTx` hands to `Transaction` returns nil; so
a unit of work that inserts a row and then panics, with either kind of value, makes
`InTx` return nil with the row committed. -/
theorem inTx_panic_returns_nil_and_commits :
    (∀ (operation : gormcommon.TxOperation) (tx : gorm.DB) (w w1 : World) (v : PanicValue),
      operation tx w = .panic v w1 →
      gormcommon.InTx.callback operation tx w =
        .ret none (w1.log "a panic occurred in the gorm transaction")) ∧
    gormcommon.InTx Env.quiet context.Background (some .conn)
        (insertThenPanic Env.quiet (.value "boom")) World.empty =
      .ret none { rows := [{ ID := ⟨7⟩, Name := "row" }], txRows := [], inserts := 1,
                  uuids := 0, logs := ["a panic occurred in the gorm transaction"] } ∧
    gormcommon.InTx Env.quiet context.Background (some .conn)
        (insertThenPanic Env.quiet (.error (.sentinel "boom"))) World.empty =
      .ret none { rows := [{ ID := ⟨7⟩, Name := "row" }], txRows := [], inserts := 1,
                  uuids := 0, logs := ["a panic occurred in the gorm transaction"] } :=
  ⟨inTx_callback_panic, rfl, rfl⟩

/-! ## Ingestion service: the loop on the gorm repository -/

/-- The rows stored for a list of records are as many as the records. -/
theorem stored_length (env : Env) (pre : List fooService.Foo) :
    ∀ n, (stored env n pre).length = pre.length := by
  induction pre with
  | nil => intro n; rfl
  | cons f fs ih => intro n; simp [stored, ih]

/-- The rows stored for a list of records carry the names of the records, in order. -/
theorem stored_names (env : Env) (pre : List fooService.Foo) :
    ∀ n, (stored env n pre).map (fun row => row.Name) = pre.map (fun f => f.Name) := by
  induction pre with
  | nil => intro n; rfl
  | cons f fs ih => intro n; simp [stored, ih]

/-- The state after successful creates through the connection handle, field by field. -/
theorem createdAll_conn (env : Env) (pre : List fooService.Foo) :
    ∀ w : World, w.createdAll env .conn pre =
      { w with rows := w.rows ++ stored env w.uuids pre,
               inserts := w.inserts + pre.length, uuids := w.uuids + pre.length } := by
  induction pre with
  | nil => intro w; simp [World.createdAll, stored]
  | cons f fs ih =>
    intro w
    simp only [World.createdAll, ih, World.created, stored, List.length_cons]
    simp [Nat.add_assoc, Nat.add_comm 1]

/-- The state after successful creates through a transaction handle, field by field. -/
theorem createdAll_txn (env : Env) (pre : List fooService.Foo) :
    ∀ w : World, w.createdAll env .txn pre =
      { w with txRows := w.txRows ++ stored env w.uuids pre,
               inserts := w.inserts + pre.length, uuids := w.uuids + pre.length } := by
  induction pre with
  | nil => intro w; simp [World.createdAll, stored]
  | cons f fs ih =>
    intro w
    simp only [World.createdAll, ih, World.created, stored, List.length_cons]
    simp [Nat.add_assoc, Nat.add_comm 1]

/-- What is done at the caller's time `t` is done at time 0 for a callee entered then. -/
theorem Context.since_done (ctx : Context) (t : Nat) : (ctx.since t).done 0 = ctx.done t := by
  cases hd : ctx.doneAt with
  | none => simp [Context.since, Context.done, hd]
  | some n => simp [Context.since, Context.done, hd, Nat.sub_eq_zero_iff_le]

/-- One successful `Create` of the gorm repository, called as the loop calls it, under a
context that is not done. -/
theorem toRepository_Create_ok (env : Env) (db : gorm.DB) (ctx : Context)
    (f : fooService.Foo) (w : World) (hid : f.ID = uuid.Nil) (hctx : ctx.done 0 = false)
    (hins : env.insertErr w.inserts = none) :
    (dataAccessLayer.gormFooRepo.toRepository env { db := db }).Create ctx
        (fooService.MapFooApiToDataLayer f) w =
      .ret (none, { ID := env.newUUID w.uuids, Name := f.Name }) (w.created env db f) := by
  simp only [dataAccessLayer.gormFooRepo.toRepository, dataAccessLayer.gormFooRepo.Create,
    fooService.MapFooApiToDataLayer, hid, gorm.DB.Create, hins, hctx, World.created]
  cases db <;> simp

/-- Every `Create` of the gorm repository, called as the loop calls it, either returns an
error and adds no row, or stores the record. An error for a record without identifier is
the context's error when the context is done, the engine's otherwise. -/
theorem toRepository_Create_outcome (env : Env) (db : gorm.DB) (ctx : Context)
    (f : fooService.Foo) (w : World) :
    (∃ e foo1 w1,
      (dataAccessLayer.gormFooRepo.toRepository env { db := db }).Create ctx
          (fooService.MapFooApiToDataLayer f) w = .ret (some e, foo1) w1 ∧
      w1.rows = w.rows ∧ w1.txRows = w.txRows ∧
      (f.ID = uuid.Nil →
        (ctx.done 0 = true ∧ e = ctx.err) ∨
        (ctx.done 0 = false ∧ env.insertErr w.inserts = some e))) ∨
    (f.ID = uuid.Nil ∧ ctx.done 0 = false ∧ env.insertErr w.inserts = none ∧
      (dataAccessLayer.gormFooRepo.toRepository env { db := db }).Create ctx
          (fooService.MapFooApiToDataLayer f) w =
        .ret (none, { ID := env.newUUID w.uuids, Name := f.Name }) (w.created env db f)) := by
  by_cases hid : f.ID = uuid.Nil
  · cases hctx : ctx.done 0 with
    | true =>
      refine Or.inl ⟨ctx.err, { ID := env.newUUID w.uuids, Name := f.Name },
        { w with inserts := w.inserts + 1, uuids := w.uuids + 1 }, ?_, rfl, rfl,
        fun _ => Or.inl ⟨rfl, rfl⟩⟩
      simp only [dataAccessLayer.gormFooRepo.toRepository, dataAccessLayer.gormFooRepo.Create,
        fooService.MapFooApiToDataLayer, hid, gorm.DB.Create, hctx]
      simp
    | false =>
      cases hins : env.insertErr w.inserts with
      | none =>
        exact Or.inr ⟨hid, rfl, rfl, toRepository_Create_ok env db ctx f w hid hctx hins⟩
      | some e =>
        refine Or.inl ⟨e, { ID := env.newUUID w.uuids, Name := f.Name },
          { w with inserts := w.inserts + 1, uuids := w.uuids + 1 }, ?_, rfl, rfl,
          fun _ => Or.inr ⟨rfl, rfl⟩⟩
        simp only [dataAccessLayer.gormFooRepo.toRepository,
          dataAccessLayer.gormFooRepo.Create, fooService.MapFooApiToDataLayer, hid,
          gorm.DB.Create, hctx, hins]
        simp
  · refine Or.inl ⟨.errorf ("create was called with a foo that already had an id: "
        ++ f.ID.String), fooService.MapFooApiToDataLayer f, w, ?_, rfl, rfl,
      fun h => absurd h hid⟩
    simp only [dataAccessLayer.gormFooRepo.toRepository, dataAccessLayer.gormFooRepo.Create,
      fooService.MapFooApiToDataLayer]
    rw [if_pos hid]

/-- One failing `Create` of the gorm repository, called as the loop calls it: the record
has an identifier already, or the engine fails the insert statement. No row is added. -/
theorem toRepository_Create_fails (env : Env) (db : gorm.DB) (ctx : Context)
    (f : fooService.Foo) (w : World)
    (hbad : f.ID ≠ uuid.Nil ∨ env.insertErr w.inserts ≠ none) :
    ∃ e foo1 w1,
      (dataAccessLayer.gormFooRepo.toRepository env { db := db }).Create ctx
          (fooService.MapFooApiToDataLayer f) w = .ret (some e, foo1) w1 ∧
      w1.rows = w.rows ∧ w1.txRows = w.txRows := by
  rcases toRepository_Create_outcome env db ctx f w with
    ⟨e, foo1, w1, hcreate, hrows, htx, _⟩ | ⟨hid, _, hins, _⟩
  · exact ⟨e, foo1, w1, hcreate, hrows, htx⟩
  · rcases hbad with h | h
    · exact absurd hid h
    · exact absurd hins h

/-- The loop over a run of records received while the context is not done and stored by
`Create`: it goes on, after them, from the state they leave. -/
theorem createLoop_received_run (env : Env) (sched : Nat → Bool) (ctx : Context) (db : gorm.DB)
    (rest : List fooService.Foo) (closed : Bool) (fuel : Nat) (pre : List fooService.Foo) :
    ∀ (i : Nat) (w : World),
      (∀ f ∈ pre, f.ID = uuid.Nil) →
      (∀ j, j < pre.length → env.insertErr (w.inserts + j) = none) →
      (∀ j, j < pre.length → ctx.done (i + j) = false) →
      fooService.createLoop sched ctx (dataAccessLayer.gormFooRepo.toRepository env { db := db })
          (pre.length + fuel) i { items := pre ++ rest, closed := closed } w =
        fooService.createLoop sched ctx
          (dataAccessLayer.gormFooRepo.toRepository env { db := db })
          fuel (i + pre.length) { items := rest, closed := closed } (w.createdAll env db pre) := by
  induction pre with
  | nil => intro i w _ _ _; simp [World.createdAll]
  | cons f fs ih =>
    intro i w hids hins hdone
    have hfuel : (f :: fs).length + fuel = (fs.length + fuel) + 1 := by
      simp [Nat.add_right_comm]
    have hid : f.ID = uuid.Nil := hids f (List.mem_cons_self _ _)
    have hins0 : env.insertErr w.inserts = none := by
      simpa using hins 0 (by simp)
    have hdone0 : ctx.done i = false := by
      simpa using hdone 0 (by simp)
    have hinserts : (w.created env db f).inserts = w.inserts + 1 := by
      cases db <;> rfl
    rw [hfuel, fooService.createLoop]
    simp only [fooService.select, fooService.Chan.recv, List.cons_append, hdone0,
      Bool.false_and, Bool.false_eq_true, if_false]
    rw [toRepository_Create_ok env db (ctx.since i) f w hid
      ((Context.since_done ctx i).trans hdone0) hins0]
    simp only []
    rw [ih (i + 1) (w.created env db f) (fun g hg => hids g (List.mem_cons_of_mem _ hg))
      (fun j hj => by
        rw [hinserts, Nat.add_assoc, Nat.add_comm 1 j]
        exact hins (j + 1) (by simpa using hj))
      (fun j hj => by
        rw [Nat.add_assoc, Nat.add_comm 1 j]
        exact hdone (j + 1) (by simpa using hj))]
    simp [World.createdAll, Nat.add_assoc, Nat.add_comm 1]

/-- The loop on a stream whose records before `bad` are stored and whose record `bad` is
refused, with no cancellation: it returns an error, in a state that holds the rows of the
records before `bad` and nothing of `bad`. -/
theorem createLoop_fails_at (env : Env) (sched : Nat → Bool) (ctx : Context) (db : gorm.DB)
    (pre : List fooService.Foo) (bad : fooService.Foo) (post : List fooService.Foo)
    (closed : Bool) (fuel : Nat) (w : World)
    (hctx : ctx.doneAt = none) (hfuel : pre.length < fuel)
    (hids : ∀ f ∈ pre, f.ID = uuid.Nil)
    (hins : ∀ j, j < pre.length → env.insertErr (w.inserts + j) = none)
    (hbad : bad.ID ≠ uuid.Nil ∨ env.insertErr (w.inserts + pre.length) ≠ none) :
    ∃ e w1,
      fooService.createLoop sched ctx (dataAccessLayer.gormFooRepo.toRepository env { db := db })
          fuel 1 { items := pre ++ bad :: post, closed := closed } w =
        .ret (some (.wrapf "could not create a foo: " e)) w1 ∧
      w1.rows = (w.createdAll env db pre).rows ∧
      w1.txRows = (w.createdAll env db pre).txRows := by
  obtain ⟨m, rfl⟩ : ∃ m, fuel = pre.length + (m + 1) :=
    ⟨fuel - pre.length - 1, by omega⟩
  have hdone : ∀ i, ctx.done i = false := fun i => by simp [Context.done, hctx]
  have hinserts : (w.createdAll env db pre).inserts = w.inserts + pre.length := by
    cases db
    · rw [createdAll_conn]
    · rw [createdAll_txn]
  rw [createLoop_received_run env sched ctx db (bad :: post) closed (m + 1) pre 1 w hids hins
    (fun j _ => hdone _)]
  obtain ⟨e, foo1, w1, hcreate, hrows, htx⟩ :=
    toRepository_Create_fails env db (ctx.since (1 + pre.length)) bad
      (w.createdAll env db pre) (by rwa [hinserts])
  refine ⟨e, w1, ?_, hrows, htx⟩
  rw [fooService.createLoop]
  simp only [fooService.select, fooService.Chan.recv, hdone, Bool.false_and,
    Bool.false_eq_true, if_false]
  rw [hcreate]

/-- What a receive yields carries no identifier when no record of the stream does, and
what is left of the stream is part of it. -/
theorem Chan_recv_ids (ch rest : fooService.Chan) (f : fooService.Foo)
    (hrecv : ch.recv = some (f, rest)) (hids : ∀ g ∈ ch.items, g.ID = uuid.Nil) :
    f.ID = uuid.Nil ∧ ∀ g ∈ rest.items, g.ID = uuid.Nil := by
  obtain ⟨items, closed⟩ := ch
  cases items with
  | nil =>
    cases closed with
    | false => simp [fooService.Chan.recv] at hrecv
    | true =>
      simp only [fooService.Chan.recv, if_true, Option.some.injEq, Prod.mk.injEq] at hrecv
      obtain ⟨hf, hrest⟩ := hrecv
      subst hf hrest
      exact ⟨rfl, hids⟩
  | cons x xs =>
    simp only [fooService.Chan.recv, Option.some.injEq, Prod.mk.injEq] at hrecv
    obtain ⟨hf, hrest⟩ := hrecv
    subst hf hrest
    exact ⟨hids _ (List.mem_cons_self _ _), fun g hg => hids g (List.mem_cons_of_mem _ hg)⟩

/-- The loop under a context that is done from time `n` on, started at time `i`, for every
scheduling of the `select`, every stream and every engine: with more than `n - i`
iterations allowed it returns an error; the rows it leaves are those it found and at most
`n - i` more (none through a transaction handle); and when no record of the stream
carries an identifier and the engine fails none of the inserts made before the
cancellation, the error is the context's own, wrapped by one of the two branches. -/
theorem createLoop_cancelled (env : Env) (sched : Nat → Bool) (ctx : Context) (db : gorm.DB)
    (n : Nat) (hctx : ctx.doneAt = some n) (fuel : Nat) :
    ∀ (i : Nat) (ch : fooService.Chan) (w : World), n - i < fuel →
      ∃ e w1 l,
        fooService.createLoop sched ctx
            (dataAccessLayer.gormFooRepo.toRepository env { db := db }) fuel i ch w =
          .ret (some e) w1 ∧
        w1.rows = w.rows ++ l ∧ l.length ≤ n - i ∧ (db = .txn → l = []) ∧
        ((∀ g ∈ ch.items, g.ID = uuid.Nil) →
          (∀ k, k < n - i → env.insertErr (w.inserts + k) = none) →
          (e = .wrapf "could not complete creation of many foo: " ctx.err ∨
            e = .wrapf "could not create a foo: " ctx.err)) := by
  induction fuel with
  | zero => intro i ch w h; omega
  | succ m ih =>
    intro i ch w hfuel
    have hcancel : ∃ e w1 l,
        (Result.ret (some (GoError.wrapf "could not complete creation of many foo: " ctx.err))
            (w.log "context was killed while creating many") : Result GoErr) =
          .ret (some e) w1 ∧
        w1.rows = w.rows ++ l ∧ l.length ≤ n - i ∧ (db = .txn → l = []) ∧
        ((∀ g ∈ ch.items, g.ID = uuid.Nil) →
          (∀ k, k < n - i → env.insertErr (w.inserts + k) = none) →
          (e = .wrapf "could not complete creation of many foo: " ctx.err ∨
            e = .wrapf "could not create a foo: " ctx.err)) :=
      ⟨_, _, [], rfl, by simp [World.log], Nat.zero_le _, fun _ => rfl,
        fun _ _ => Or.inl rfl⟩
    rw [fooService.createLoop]
    cases hrecv : ch.recv with
    | none =>
      simp only [fooService.select, hrecv, hctx, Option.isSome_some, if_true]
      exact hcancel
    | some got =>
      obtain ⟨f, rest⟩ := got
      cases hsel : (ctx.done i && sched i) with
      | true =>
        simp only [fooService.select, hrecv, hsel, if_true]
        exact hcancel
      | false =>
        simp only [fooService.select, hrecv, hsel, Bool.false_eq_true, if_false]
        rcases toRepository_Create_outcome env db (ctx.since i) f w with
          ⟨e, foo1, w1, hcreate, hrows, _, herr⟩ | ⟨hid, hnotdone, hins, hcreate⟩
        · rw [hcreate]
          refine ⟨_, w1, [], rfl, by simp [hrows], Nat.zero_le _, fun _ => rfl,
            fun hids hok => Or.inr ?_⟩
          rcases herr (Chan_recv_ids ch rest f hrecv hids).1 with ⟨_, he⟩ | ⟨hnd, hfail⟩
          · rw [he]
            rfl
          · rw [Context.since_done] at hnd
            have hlt : i < n := by
              simp only [Context.done, hctx, decide_eq_false_iff_not, Nat.not_le] at hnd
              exact hnd
            have hnone := hok 0 (by omega)
            rw [Nat.add_zero, hfail] at hnone
            cases hnone
        · rw [Context.since_done] at hnotdone
          have hlt : i < n := by
            simp only [Context.done, hctx, decide_eq_false_iff_not, Nat.not_le] at hnotdone
            exact hnotdone
          have hinserts : (w.created env db f).inserts = w.inserts + 1 := by
            cases db <;> rfl
          rw [hcreate]
          obtain ⟨e, w1, l, hrun, hrows, hlen, htxn, hwrap⟩ :=
            ih (i + 1) rest (w.created env db f) (by omega)
          simp only []
          rw [hrun]
          have hwrap1 : (∀ g ∈ ch.items, g.ID = uuid.Nil) →
              (∀ k, k < n - i → env.insertErr (w.inserts + k) = none) →
              (e = .wrapf "could not complete creation of many foo: " ctx.err ∨
                e = .wrapf "could not create a foo: " ctx.err) :=
            fun hids hok => hwrap (Chan_recv_ids ch rest f hrecv hids).2 (fun k hk => by
              rw [hinserts, Nat.add_assoc, Nat.add_comm 1 k]
              exact hok (k + 1) (by omega))
          cases db with
          | conn =>
            refine ⟨e, w1, { ID := env.newUUID w.uuids, Name := f.Name } :: l, rfl, ?_, ?_,
              (fun h => by cases h), hwrap1⟩
            · rw [hrows]
              simp [World.created]
            · simp only [List.length_cons]
              omega
          | txn =>
            refine ⟨e, w1, [], rfl, ?_, Nat.zero_le _, fun _ => rfl, hwrap1⟩
            rw [hrows, htxn rfl]
            simp [World.created]

/-- The atomic entry point of a service that holds the gorm provider, on the connection
handle: when the transaction begins and the loop, run on the transaction handle, returns
an error, that error is returned and the transaction is rolled back. -/
theorem atomic_of_loop_error (env : Env) (sched : Nat → Bool) (ctx : Context)
    (fooChan : fooService.Chan) (fuel : Nat) (w w1 : World) (e : GoError)
    (hbegin : gorm.DB.Begin env ctx = none)
    (hloop : fooService.createLoop sched ctx
        (dataAccessLayer.gormFooRepo.toRepository env { db := .txn }) fuel 1 fooChan
        { w with txRows := [] } = .ret (some e) w1) :
    (fooService.wired env (some .conn)).CreateMultipleAtomic env sched fuel ctx fooChan w =
      .ret (some e) { w1 with txRows := [] } := by
  simp only [fooService.gormFooService.CreateMultipleAtomic, fooService.wired,
    gormcommon.InTx, gorm.DB.Transaction, hbegin, gormcommon.InTx.callback,
    fooService.gormFooService.callProvider, dataAccessLayer.NewGormFooRepo, hloop,
    gormcommon.InTx.deferred]

/-- The plain entry point of a service that holds the gorm provider is the loop on a
repository over the service's handle. -/
theorem createMultiple_wired (env : Env) (sched : Nat → Bool) (ctx : Context)
    (fooChan : fooService.Chan) (fuel : Nat) (w : World) (db : gorm.DB) :
    (fooService.wired env (some db)).CreateMultiple env sched fuel ctx fooChan w =
      fooService.createLoop sched ctx (dataAccessLayer.gormFooRepo.toRepository env { db := db })
        fuel 1 fooChan w := by
  simp only [fooService.gormFooService.CreateMultiple, fooService.wired,
    fooService.gormFooService.callProvider, dataAccessLayer.NewGormFooRepo]

/-! ## Ingestion service: atomicity -/

/-- C2: take a stream whose first `k - 1` records (`pre`) are created and whose k-th
record (`bad`) is refused by `Create`, because it carries an identifier or because the
engine fails its insert, with a context that is never cancelled. On a service that holds
the gorm provider, over the connection handle, `CreateMultipleAtomic` returns an error
and the committed rows are those from before the call, and `CreateMultiple` returns an
error and has added exactly one row for each of the first `k - 1` records, in order, under
a fresh identifier and the record's name. -/
theorem kth_create_failure (env : Env) (sched : Nat → Bool) (ctx : Context)
    (pre : List fooService.Foo) (bad : fooService.Foo) (post : List fooService.Foo)
    (closed : Bool) (fuel : Nat) (w : World)
    (hctx : ctx.doneAt = none) (hfuel : pre.length < fuel)
    (hids : ∀ f ∈ pre, f.ID = uuid.Nil)
    (hins : ∀ j, j < pre.length → env.insertErr (w.inserts + j) = none)
    (hbad : bad.ID ≠ uuid.Nil ∨ env.insertErr (w.inserts + pre.length) ≠ none) :
    (∃ e w1,
      (fooService.wired env (some .conn)).CreateMultipleAtomic env sched fuel ctx
          { items := pre ++ bad :: post, closed := closed } w = .ret (some e) w1 ∧
      w1.rows = w.rows) ∧
    (∃ e w1,
      (fooService.wired env (some .conn)).CreateMultiple env sched fuel ctx
          { items := pre ++ bad :: post, closed := closed } w = .ret (some e) w1 ∧
      w1.rows = w.rows ++ stored env w.uuids pre ∧
      (stored env w.uuids pre).length = pre.length ∧
      (stored env w.uuids pre).map (fun row => row.Name) = pre.map (fun f => f.Name)) := by
  constructor
  · cases hbegin : gorm.DB.Begin env ctx with
    | some e =>
      refine ⟨e, w, ?_, rfl⟩
      simp only [fooService.gormFooService.CreateMultipleAtomic, fooService.wired,
        gormcommon.InTx, gorm.DB.Transaction, hbegin]
    | none =>
      obtain ⟨e, w1, hloop, hrows, _⟩ :=
        createLoop_fails_at env sched ctx .txn pre bad post closed fuel { w with txRows := [] }
          hctx hfuel hids hins hbad
      refine ⟨.wrapf "could not create a foo: " e, { w1 with txRows := [] },
        atomic_of_loop_error env sched ctx _ fuel w w1 _ hbegin hloop, ?_⟩
      rw [createdAll_txn] at hrows
      exact hrows
  · obtain ⟨e, w1, hloop, hrows, _⟩ :=
      createLoop_fails_at env sched ctx .conn pre bad post closed fuel w
        hctx hfuel hids hins hbad
    refine ⟨.wrapf "could not create a foo: " e, w1, ?_, ?_, stored_length env pre _,
      stored_names env pre _⟩
    · rw [createMultiple_wired]
      exact hloop
    · rw [createdAll_conn] at hrows
      exact hrows

/-- Witness of C2: the stream `A`, `B`, `C` with the engine failing the second insert. -/
theorem kth_create_failure_witness :
    (∃ e w1,
      (fooService.wired (Env.failingInsert 1 (.sentinel "disk full"))
          (some .conn)).CreateMultipleAtomic (Env.failingInsert 1 (.sentinel "disk full"))
          (fun _ => true) 5 context.Background
          { items := [{ ID := uuid.Nil, Name := "A" }] ++
              { ID := uuid.Nil, Name := "B" } :: [{ ID := uuid.Nil, Name := "C" }],
            closed := true } World.empty = .ret (some e) w1 ∧
      w1.rows = World.empty.rows) ∧
    (∃ e w1,
      (fooService.wired (Env.failingInsert 1 (.sentinel "disk full"))
          (some .conn)).CreateMultiple (Env.failingInsert 1 (.sentinel "disk full"))
          (fun _ => true) 5 context.Background
          { items := [{ ID := uuid.Nil, Name := "A" }] ++
              { ID := uuid.Nil, Name := "B" } :: [{ ID := uuid.Nil, Name := "C" }],
            closed := true } World.empty = .ret (some e) w1 ∧
      w1.rows = World.empty.rows ++
        stored (Env.failingInsert 1 (.sentinel "disk full")) World.empty.uuids
          [{ ID := uuid.Nil, Name := "A" }] ∧
      (stored (Env.failingInsert 1 (.sentinel "disk full")) World.empty.uuids
        [{ ID := uuid.Nil, Name := "A" }]).length = [({ ID := uuid.Nil, Name := "A" } :
          fooService.Foo)].length ∧
      (stored (Env.failingInsert 1 (.sentinel "disk full")) World.empty.uuids
        [{ ID := uuid.Nil, Name := "A" }]).map (fun row => row.Name) =
        [({ ID := uuid.Nil, Name := "A" } : fooService.Foo)].map (fun f => f.Name)) :=
  kth_create_failure (Env.failingInsert 1 (.sentinel "disk full")) (fun _ => true)
    context.Background [{ ID := uuid.Nil, Name := "A" }] { ID := uuid.Nil, Name := "B" }
    [{ ID := uuid.Nil, Name := "C" }] true 5 World.empty rfl (by decide)
    (fun f hf => by
      rw [List.mem_singleton] at hf
      rw [hf])
    (fun j hj => by
      have hj0 : j = 0 := by
        simp only [List.length_singleton] at hj
        omega
      rw [hj0]
      rfl)
    (Or.inr (by
      intro h
      cases h))

/-! ## Ingestion service: cancellation -/

/-- Either branch of the loop that wraps the context's error returns an error in whose
chain `errors.Is` finds it. -/
theorem errorsIs_of_wrapped (ctx : Context) (e : GoError)
    (h : e = .wrapf "could not complete creation of many foo: " ctx.err ∨
      e = .wrapf "could not create a foo: " ctx.err) :
    errorsIs (some e) ctx.err = true := by
  rcases h with h | h <;> rw [h] <;> simp [errorsIs, GoError.Is, GoError.Is_self]

/-- The atomic entry point, on a service that holds the gorm provider over the connection
handle, under a context that is done from time `n` on, for every scheduling: it returns an
error and the committed rows are those from before the call; the error is the context's
own, possibly wrapped, when nothing else failed first. -/
theorem atomic_cancelled (env : Env) (sched : Nat → Bool) (ctx : Context)
    (fooChan : fooService.Chan) (fuel : Nat) (w : World) (n : Nat)
    (hctx : ctx.doneAt = some n) (hfuel : n < fuel) :
    ∃ e2 w2,
      (fooService.wired env (some .conn)).CreateMultipleAtomic env sched fuel ctx fooChan w =
        .ret (some e2) w2 ∧
      w2.rows = w.rows ∧
      ((∀ g ∈ fooChan.items, g.ID = uuid.Nil) →
        (∀ k, k < n - 1 → env.insertErr (w.inserts + k) = none) →
        (∀ b, env.beginErr = some b → errorsIs (some b) ctx.err = true) →
        errorsIs (some e2) ctx.err = true) := by
  cases hbegin : gorm.DB.Begin env ctx with
  | some b =>
    refine ⟨b, w, ?_, rfl, fun _ _ hb => ?_⟩
    · simp only [fooService.gormFooService.CreateMultipleAtomic, fooService.wired,
        gormcommon.InTx, gorm.DB.Transaction, hbegin]
    · cases hdone : ctx.done 0 with
      | true =>
        simp only [gorm.DB.Begin, hdone, if_true, Option.some.injEq] at hbegin
        rw [← hbegin]
        simp [errorsIs, GoError.Is_self]
      | false =>
        simp only [gorm.DB.Begin, hdone, Bool.false_eq_true, if_false] at hbegin
        exact hb b hbegin
  | none =>
    obtain ⟨e, w1, l, hloop, hrows, _, htxn, hwrap⟩ :=
      createLoop_cancelled env sched ctx .txn n hctx fuel 1 fooChan { w with txRows := [] }
        (by omega)
    refine ⟨e, { w1 with txRows := [] },
      atomic_of_loop_error env sched ctx fooChan fuel w w1 e hbegin hloop, ?_,
      fun hids hins _ => errorsIs_of_wrapped ctx e (hwrap hids hins)⟩
    rw [htxn rfl] at hrows
    simpa using hrows

/-- C3, as the claim has it, fails when the `select` finds the context cancelled and the
stream ready and takes the receive. With the context done from the second `select` on and
the stream `A`, `B`, the second `select` receives `B`: its insert is issued under the
cancelled context and refused, so both entry points return the context's error wrapped by
the create branch, with `A` alone persisted (`CreateMultiple`) or nothing
(`CreateMultipleAtomic`). When `B` already carries an identifier, `Create` refuses it
before the engine is asked and the error returned is not the context's. -/
theorem select_receives_after_cancellation :
    Context.done { doneAt := some 2, err := context.Canceled } 2 = true ∧
    fooService.select (fun _ => false) { doneAt := some 2, err := context.Canceled } 2
        { items := [{ ID := uuid.Nil, Name := "B" }], closed := false } =
      .received { ID := uuid.Nil, Name := "B" } { items := [], closed := false } ∧
    (fooService.wired Env.quiet (some .conn)).CreateMultiple Env.quiet (fun _ => false) 5
        { doneAt := some 2, err := context.Canceled }
        { items := [{ ID := uuid.Nil, Name := "A" }, { ID := uuid.Nil, Name := "B" }],
          closed := false } World.empty =
      .ret (some (.wrapf "could not create a foo: " context.Canceled))
        { rows := [{ ID := ⟨1⟩, Name := "A" }], txRows := [], inserts := 2, uuids := 2,
          logs := [] } ∧
    (fooService.wired Env.quiet (some .conn)).CreateMultipleAtomic Env.quiet (fun _ => false) 5
        { doneAt := some 2, err := context.Canceled }
        { items := [{ ID := uuid.Nil, Name := "A" }, { ID := uuid.Nil, Name := "B" }],
          closed := false } World.empty =
      .ret (some (.wrapf "could not create a foo: " context.Canceled))
        { rows := [], txRows := [], inserts := 2, uuids := 2, logs := [] } ∧
    (fooService.wired Env.quiet (some .conn)).CreateMultiple Env.quiet (fun _ => false) 5
        { doneAt := some 2, err := context.Canceled }
        { items := [{ ID := uuid.Nil, Name := "A" }, { ID := ⟨9⟩, Name := "B" }],
          closed := false } World.empty =
      .ret (some (.wrapf "could not create a foo: "
          (.errorf ("create was called with a foo that already had an id: "
            ++ uuid.UUID.String ⟨9⟩))))
        { rows := [{ ID := ⟨1⟩, Name := "A" }], txRows := [], inserts := 1, uuids := 1,
          logs := [] } ∧
    errorsIs (some (.wrapf "could not create a foo: "
        (.errorf ("create was called with a foo that already had an id: "
          ++ uuid.UUID.String ⟨9⟩)))) context.Canceled = false := by
  refine ⟨rfl, rfl, rfl, rfl, rfl, ?_⟩
  simp [errorsIs, GoError.Is, context.Canceled]

/-- C3 (amended): on a service that holds the gorm provider, over the connection handle,
let the context be done from time `n` on, the `select` of the i-th iteration being
evaluated at time `i`. Then for every scheduling of the `select`, every stream and every
engine, both entry points return an error within `n + 1` iterations; `CreateMultiple` has
added at most `n - 1` rows to those it found, hence at most one when the context is
cancelled before the second record is received (`n ≤ 2`), and `CreateMultipleAtomic` has
left the committed rows as they were. When no record of the stream carries an identifier
and the engine fails none of the inserts made before the cancellation, the error of
`CreateMultiple` has the context's own error in its chain, and so has the error of
`CreateMultipleAtomic` when `Begin`, if it fails, fails with the context's error. -/
theorem cancellation_every_scheduling (env : Env) (sched : Nat → Bool) (ctx : Context)
    (fooChan : fooService.Chan) (fuel : Nat) (w : World) (n : Nat)
    (hctx : ctx.doneAt = some n) (hfuel : n < fuel) :
    ∃ e1 w1 e2 w2 l,
      (fooService.wired env (some .conn)).CreateMultiple env sched fuel ctx fooChan w =
        .ret (some e1) w1 ∧
      (fooService.wired env (some .conn)).CreateMultipleAtomic env sched fuel ctx fooChan w =
        .ret (some e2) w2 ∧
      w1.rows = w.rows ++ l ∧ l.length ≤ n - 1 ∧
      (n ≤ 2 → w1.rows.length ≤ w.rows.length + 1) ∧
      w2.rows = w.rows ∧
      ((∀ g ∈ fooChan.items, g.ID = uuid.Nil) →
        (∀ k, k < n - 1 → env.insertErr (w.inserts + k) = none) →
        errorsIs (some e1) ctx.err = true ∧
        ((∀ b, env.beginErr = some b → errorsIs (some b) ctx.err = true) →
          errorsIs (some e2) ctx.err = true)) := by
  obtain ⟨e1, w1, l, hloop, hrows, hlen, _, hwrap⟩ :=
    createLoop_cancelled env sched ctx .conn n hctx fuel 1 fooChan w (by omega)
  obtain ⟨e2, w2, hatomic, hrows2, hwrap2⟩ :=
    atomic_cancelled env sched ctx fooChan fuel w n hctx hfuel
  refine ⟨e1, w1, e2, w2, l, (createMultiple_wired env sched ctx fooChan fuel w .conn).trans hloop,
    hatomic, hrows, hlen, fun hn => ?_, hrows2,
    fun hids hins => ⟨errorsIs_of_wrapped ctx e1 (hwrap hids hins), hwrap2 hids hins⟩⟩
  rw [hrows, List.length_append]
  omega

/-- Witness of C3 (amended): the stream `A`, `B`, the context done from the second
`select` on, and a `select` that takes the receive whenever it can. -/
theorem cancellation_every_scheduling_witness :
    ∃ e1 w1 e2 w2 l,
      (fooService.wired Env.quiet (some .conn)).CreateMultiple Env.quiet (fun _ => false) 5
          { doneAt := some 2, err := context.Canceled }
          { items := [{ ID := uuid.Nil, Name := "A" }, { ID := uuid.Nil, Name := "B" }],
            closed := false } World.empty = .ret (some e1) w1 ∧
      (fooService.wired Env.quiet (some .conn)).CreateMultipleAtomic Env.quiet (fun _ => false)
          5 { doneAt := some 2, err := context.Canceled }
          { items := [{ ID := uuid.Nil, Name := "A" }, { ID := uuid.Nil, Name := "B" }],
            closed := false } World.empty = .ret (some e2) w2 ∧
      w1.rows = World.empty.rows ++ l ∧ l.length ≤ 2 - 1 ∧
      (2 ≤ 2 → w1.rows.length ≤ World.empty.rows.length + 1) ∧
      w2.rows = World.empty.rows ∧
      ((∀ g ∈ ([{ ID := uuid.Nil, Name := "A" }, { ID := uuid.Nil, Name := "B" }] :
            List fooService.Foo), g.ID = uuid.Nil) →
        (∀ k, k < 2 - 1 → Env.quiet.insertErr (World.empty.inserts + k) = none) →
        errorsIs (some e1) context.Canceled = true ∧
        ((∀ b, Env.quiet.beginErr = some b → errorsIs (some b) context.Canceled = true) →
          errorsIs (some e2) context.Canceled = true)) :=
  cancellation_every_scheduling Env.quiet (fun _ => false)
    { doneAt := some 2, err := context.Canceled }
    { items := [{ ID := uuid.Nil, Name := "A" }, { ID := uuid.Nil, Name := "B" }],
      closed := false } 5 World.empty 2 rfl (by decide)

/-! ## Ingestion service: the end of the stream and the provider -/

/-- The loop on a closed stream, with no cancellation and an engine that never fails: for
every allowance of iterations it is still running when the allowance ends, having stored
one row in each iteration, whether the stream still held a record or not. -/
theorem createLoop_closed_never_returns (env : Env) (sched : Nat → Bool) (ctx : Context)
    (hctx : ctx.doneAt = none) (hins : ∀ n, env.insertErr n = none) (fuel : Nat) :
    ∀ (items : List fooService.Foo) (i : Nat) (w : World),
      (∀ f ∈ items, f.ID = uuid.Nil) →
      ∃ w1,
        fooService.createLoop sched ctx
            (dataAccessLayer.gormFooRepo.toRepository env { db := .conn }) fuel i
            { items := items, closed := true } w = .timeout w1 ∧
        w1.rows.length = w.rows.length + fuel := by
  have hdone : ∀ i, ctx.done i = false := fun i => by simp [Context.done, hctx]
  induction fuel with
  | zero => intro items i w _; exact ⟨w, rfl, rfl⟩
  | succ n ih =>
    intro items i w hids
    cases items with
    | nil =>
      obtain ⟨w1, hrun, hlen⟩ := ih [] (i + 1)
        (w.created env .conn { ID := uuid.Nil, Name := "" }) (fun f hf => by cases hf)
      refine ⟨w1, ?_, ?_⟩
      · rw [fooService.createLoop]
        simp only [fooService.select, fooService.Chan.recv, hdone, Bool.false_and,
          Bool.false_eq_true, if_false, if_true]
        rw [toRepository_Create_ok env .conn (ctx.since i) { ID := uuid.Nil, Name := "" } w rfl
          ((Context.since_done ctx i).trans (hdone i)) (hins _)]
        exact hrun
      · rw [hlen]
        simp only [World.created, List.length_append, List.length_singleton]
        omega
    | cons f fs =>
      obtain ⟨w1, hrun, hlen⟩ := ih fs (i + 1) (w.created env .conn f)
        (fun g hg => hids g (List.mem_cons_of_mem _ hg))
      refine ⟨w1, ?_, ?_⟩
      · rw [fooService.createLoop]
        simp only [fooService.select, fooService.Chan.recv, hdone, Bool.false_and,
          Bool.false_eq_true, if_false]
        rw [toRepository_Create_ok env .conn (ctx.since i) f w
          (hids f (List.mem_cons_self _ _)) ((Context.since_done ctx i).trans (hdone i))
          (hins _)]
        exact hrun
      · rw [hlen]
        simp only [World.created, List.length_append, List.length_singleton]
        omega

/-- C1 (the code departs from the claim), on the wiring and the stream of `main`, with
nothing cancelled and nothing failing. The service built by `NewFooService` has no
provider: `CreateMultiple` panics on calling it and `CreateMultipleAtomic` returns nil,
both with no record persisted. And on a service that does hold the provider the closed
stream does not end the loop: whatever the allowance of iterations, `CreateMultiple` is
still running at its end with one row stored per iteration. -/
theorem closed_stream_is_not_the_end :
    (∀ (sched : Nat → Bool) (fuel : Nat),
      (main.service Env.quiet).CreateMultiple Env.quiet sched fuel context.Background
          main.fooChan World.empty = .panic nilDereference World.empty) ∧
    (∀ (sched : Nat → Bool) (fuel : Nat),
      (main.service Env.quiet).CreateMultipleAtomic Env.quiet sched fuel context.Background
          main.fooChan World.empty =
        .ret none { rows := [], txRows := [], inserts := 0, uuids := 0,
                    logs := ["a panic occurred in the gorm transaction"] }) ∧
    (∀ (sched : Nat → Bool) (fuel : Nat),
      ∃ w1,
        (fooService.wired Env.quiet (some .conn)).CreateMultiple Env.quiet sched fuel
            context.Background main.fooChan World.empty = .timeout w1 ∧
        w1.rows.length = fuel) := by
  refine ⟨fun _ _ => rfl, fun _ _ => rfl, fun sched fuel => ?_⟩
  obtain ⟨w1, hrun, hlen⟩ :=
    createLoop_closed_never_returns Env.quiet sched context.Background rfl (fun _ => rfl) fuel
      main.fooChan.items 1 World.empty (fun f hf => by
        simp only [main.fooChan, List.mem_cons, List.mem_singleton, List.not_mem_nil,
          or_false] at hf
        rcases hf with h | h | h <;> rw [h])
  refine ⟨w1, ?_, ?_⟩
  · rw [createMultiple_wired]
    exact hrun
  · rw [hlen]
    simp [World.empty]

/-- C10 (the code departs from the claim): the service built by `NewFooService` does not
keep the provider it is given. Its `repoProvider` is nil whatever is passed, two
providers give the same service, `CreateMultiple` panics on the nil function value before
any repository exists, and `CreateMultipleAtomic`, once its transaction has begun, has
that panic recovered by `InTx` and returns the outcome of the commit. -/
theorem newFooService_drops_provider :
    (∀ (db : Option gorm.DB) (provider : dataAccessLayer.FooProvider),
      (fooService.NewFooService db provider).repoProvider = none) ∧
    (∀ (db : Option gorm.DB) (p q : dataAccessLayer.FooProvider),
      fooService.NewFooService db p = fooService.NewFooService db q) ∧
    (∀ (env : Env) (sched : Nat → Bool) (fuel : Nat) (db : Option gorm.DB)
        (provider : dataAccessLayer.FooProvider) (ctx : Context) (fooChan : fooService.Chan)
        (w : World),
      (fooService.NewFooService db provider).CreateMultiple env sched fuel ctx fooChan w =
        .panic nilDereference w) ∧
    (∀ (env : Env) (sched : Nat → Bool) (fuel : Nat) (provider : dataAccessLayer.FooProvider)
        (ctx : Context) (fooChan : fooService.Chan) (w : World),
      gorm.DB.Begin env ctx = none →
      (fooService.NewFooService (some .conn) provider).CreateMultipleAtomic env sched
          fuel ctx fooChan w =
        .ret env.commitErr { w with txRows := [],
                                    logs := w.logs ++ ["a panic occurred in the gorm transaction"] }) :=
  ⟨fun _ _ => rfl, fun _ _ _ => rfl, fun _ _ _ _ _ _ _ _ => rfl,
    fun env _ _ _ _ _ w hbegin => by
      simp only [fooService.gormFooService.CreateMultipleAtomic, fooService.NewFooService,
        gormcommon.InTx, gorm.DB.Transaction, hbegin, gormcommon.InTx.callback,
        fooService.gormFooService.callProvider, gormcommon.InTx.deferred, nilDereference,
        World.log]
      cases env.commitErr <;> simp⟩
